import Mathlib

/-!
Verification of the `parametric` configuration library against its
natural-language specification.

The development shallowly embeds the relevant parts of the source:

* `src/parametric/_msgpack.py` — the binary wire codec (`pack_obj` /
  `unpack_obj`), modelled over byte lists (`List Nat`, each entry < 256).
* `src/parametric/_wrangle_type.py` — the relaxed coercion engine
  (`wrangle_type`, `_handle_base_type`, `_handle_union_type`).
* `src/parametric/_type_node.py` — the TypeNode tree variant
  (`IntNode`/`FloatNode`/`BoolNode`/`StrNode`/`NoneTypeNode`/`TupleNode`,
  `BoolNode.from_str`, `NoneTypeNode.from_str`).
* `src/parametric/_base_params.py` and `_base_params2.py` — the typed-object
  model (`_override_from_dict`, `__setattr__`, `__eq__`, freeze) together with
  `_context_manager.py` (`Override`).

Modelling conventions, stated once:

* Python `str` payloads on the wire are modelled by their UTF-8 byte lists;
  `str.encode("utf-8")`/`bytes.decode("utf-8")` are then the identity.  Python
  additionally validates UTF-8 on decode; the theorems below only ever decode
  byte strings produced by the encoder or ASCII payloads, where this is exact.
* Python `float` on the wire is modelled by its raw IEEE-754 bit pattern
  (a `Nat < 2^64`): `struct.pack(">d")`/`struct.unpack(">d")` transport the
  bit pattern exactly.  NaN patterns (where Python `==` fails reflexivity)
  are excluded from the round-trip universe by the `plainObj` predicate.
* `numpy` arrays (`TYPE_NDARRAY`) decode through the numpy dtype registry and
  `datetime` values through local-time conversion; both are outside this model
  (the decoder returns a dedicated `unmodeled` error / raw-bits constructor and
  no theorem touches them).
* Python `set` iteration order is hash-dependent, so set encoding is not
  modelled; set decoding is modelled as the list of decoded elements.
-/

/-! # Part 1: the binary wire codec (`_msgpack.py`) -/

/-- Big-endian 4-byte encoding of a length, as written by `struct.pack(">I", n)`.
`struct.pack` raises for `n ≥ 2^32`; the guard lives in `be4?`. -/
def be4 (n : Nat) : List Nat :=
  [n / 2 ^ 24 % 256, n / 2 ^ 16 % 256, n / 2 ^ 8 % 256, n % 256]

/-- `struct.pack(">I", n)`: succeeds only below `2^32`. -/
def be4? (n : Nat) : Option (List Nat) :=
  if n < 2 ^ 32 then some (be4 n) else none

/-- Big-endian 8-byte encoding of an (unsigned) 64-bit value. -/
def be8 (n : Nat) : List Nat :=
  [n / 2 ^ 56 % 256, n / 2 ^ 48 % 256, n / 2 ^ 40 % 256, n / 2 ^ 32 % 256,
   n / 2 ^ 24 % 256, n / 2 ^ 16 % 256, n / 2 ^ 8 % 256, n % 256]

/-- Big-endian read of 4 bytes (the payload of `struct.unpack(">I", ·)`). -/
def readBE4 (a b c d : Nat) : Nat := ((a * 256 + b) * 256 + c) * 256 + d

/-- Big-endian read of 8 bytes. -/
def readBE8 (a b c d e f g h : Nat) : Nat :=
  ((((((a * 256 + b) * 256 + c) * 256 + d) * 256 + e) * 256 + f) * 256 + g) * 256 + h

/-- Two's-complement reading of an unsigned 64-bit value, as
`struct.unpack(">q", ·)` does. -/
def sign64 (u : Nat) : Int :=
  if u < 2 ^ 63 then (u : Int) else (u : Int) - 2 ^ 64

/-- The unsigned 64-bit image of an integer in `[-2^63, 2^63)`, i.e. the byte
content written by `struct.pack(">q", i)`. -/
def toU64 (i : Int) : Nat := (i % (2 ^ 64 : Int)).toNat

/-- The value universe of `pack_obj`/`unpack_obj`.  Strings, paths and the
names inside enums/objects are carried as UTF-8 byte lists; floats as IEEE-754
bit patterns.  `enumData`/`baseParamsData` are the marker dataclasses
`EnumData`/`BaseParamsData` that `unpack_obj` returns for tags `0x0C`/`0x0D`;
`setData` is a decoded set (element list); `datetimeBits` the raw timestamp
bits of tag `0x0B` (the `datetime.fromtimestamp` conversion is unmodelled). -/
inductive Obj where
  | none
  | bool (b : Bool)
  | int (i : Int)
  | floatBits (bits : Nat)
  | str (s : List Nat)
  | bytes (s : List Nat)
  | path (s : List Nat)
  | list (xs : List Obj)
  | tuple (xs : List Obj)
  | dict (kvs : List (Obj × Obj))
  | enumVal (cls nm : List Nat)
  | enumData (cls nm : List Nat)
  | baseParams (cls : List Nat) (d : List (Obj × Obj))
  | baseParamsData (cls : List Nat) (d : Obj)
  | datetimeBits (bits : Nat)
  | setData (xs : List Obj)

mutual

/-- `pack_obj`, recursively serialising a value.  `Option` models the
exceptions `struct.pack` raises on out-of-range integers / oversized lengths,
and the final `TypeError` for unsupported objects (`EnumData`,
`BaseParamsData`, decoded sets with no deterministic order, datetimes —
whose `timestamp()` conversion is unmodelled). -/
def pack_obj : Obj → Option (List Nat)
  | .none => some [0x00]
  | .bool false => some [0x01]
  | .bool true => some [0x02]
  | .int i =>
      if -(2 ^ 63) ≤ i ∧ i < 2 ^ 63 then some (0x03 :: be8 (toU64 i)) else none
  | .floatBits b => if b < 2 ^ 64 then some (0x04 :: be8 b) else none
  | .str s => (be4? s.length).map fun l => 0x05 :: l ++ s
  | .list xs => do
      let l ← be4? xs.length
      let body ← packElems xs
      some (0x06 :: l ++ body)
  | .tuple xs => do
      let l ← be4? xs.length
      let body ← packElems xs
      some (0x07 :: l ++ body)
  | .dict kvs => do
      let l ← be4? kvs.length
      let body ← packPairs kvs
      some (0x08 :: l ++ body)
  | .path s => (be4? s.length).map fun l => 0x0A :: l ++ s
  | .enumVal cls nm => do
      let lc ← be4? cls.length
      let ln ← be4? nm.length
      some (0x0C :: lc ++ cls ++ ln ++ nm)
  | .baseParams cls d => do
      let lc ← be4? cls.length
      let ld ← be4? d.length
      let body ← packPairs d
      some (0x0D :: lc ++ cls ++ 0x08 :: ld ++ body)
  | .bytes s => (be4? s.length).map fun l => 0x0E :: l ++ s
  | .enumData _ _ => Option.none
  | .baseParamsData _ _ => Option.none
  | .datetimeBits _ => Option.none
  | .setData _ => Option.none

def packElems : List Obj → Option (List Nat)
  | [] => some []
  | x :: xs => do
      let b ← pack_obj x
      let rest ← packElems xs
      some (b ++ rest)

def packPairs : List (Obj × Obj) → Option (List Nat)
  | [] => some []
  | (k, v) :: kvs => do
      let bk ← pack_obj k
      let bv ← pack_obj v
      let rest ← packPairs kvs
      some (bk ++ bv ++ rest)

end

/-- Decoder failures: `eof` is the `EOFError` on a missing type marker,
`structError` the `struct.error` raised when `struct.unpack` receives fewer
bytes than its format needs, `unknownTag` the `ValueError` for an unrecognised
marker, and `unmodeled` marks the numpy-array branch (tag `0x09`), which this
model does not reconstruct. -/
inductive UErr where
  | eof
  | structError
  | unknownTag
  | unmodeled
  deriving DecidableEq

/-- `stream.read(k)` followed by `struct.unpack`: fewer than `k` bytes left
raises `struct.error`. -/
def readExact (k : Nat) (s : List Nat) : Except UErr (List Nat × List Nat) :=
  if s.length < k then .error .structError else .ok (s.take k, s.drop k)

/-- A bare `stream.read(k)`: returns up to `k` bytes, never failing.  This is
what the string/bytes/path payload reads do — a short stream silently yields a
short payload. -/
def readUpTo (k : Nat) (s : List Nat) : List Nat × List Nat :=
  (s.take k, s.drop k)

/-- The element loop of the list/tuple/set branches of `unpack_obj`: run the
given one-object parser `count` times, threading the stream. -/
def unpackElems (u : List Nat → Except UErr (Obj × List Nat)) :
    Nat → List Nat → Except UErr (List Obj × List Nat)
  | 0, s => .ok ([], s)
  | n + 1, s => do
      let (x, s) ← u s
      let (xs, s) ← unpackElems u n s
      .ok (x :: xs, s)

/-- The key/value loop of the dict branch of `unpack_obj`. -/
def unpackPairs (u : List Nat → Except UErr (Obj × List Nat)) :
    Nat → List Nat → Except UErr (List (Obj × Obj) × List Nat)
  | 0, s => .ok ([], s)
  | n + 1, s => do
      let (k, s) ← u s
      let (v, s) ← u s
      let (kvs, s) ← unpackPairs u n s
      .ok ((k, v) :: kvs, s)

/-- `unpack_obj`, fuelled.  The fuel only bounds recursion depth; the wrapper
`unpack_obj` supplies `length + 1`, which the round-trip lemmas below show is
never exhausted on encoder output. -/
def unpackF : Nat → List Nat → Except UErr (Obj × List Nat)
  | 0, _ => .error .eof
  | fuel + 1, s =>
    match s with
    | [] => .error .eof
    | t :: s =>
      if t = 0x00 then .ok (.none, s)
      else if t = 0x01 then .ok (.bool false, s)
      else if t = 0x02 then .ok (.bool true, s)
      else if t = 0x03 then do
        let (d, s) ← readExact 8 s
        match d with
        | [a, b, c, d', e, f, g, h] => .ok (.int (sign64 (readBE8 a b c d' e f g h)), s)
        | _ => .error .structError
      else if t = 0x04 then do
        let (d, s) ← readExact 8 s
        match d with
        | [a, b, c, d', e, f, g, h] => .ok (.floatBits (readBE8 a b c d' e f g h), s)
        | _ => .error .structError
      else if t = 0x05 then do
        let (d, s) ← readExact 4 s
        match d with
        | [a, b, c, d'] =>
            let (p, s) := readUpTo (readBE4 a b c d') s
            .ok (.str p, s)
        | _ => .error .structError
      else if t = 0x06 then do
        let (d, s) ← readExact 4 s
        match d with
        | [a, b, c, d'] => do
            let (xs, s) ← unpackElems (unpackF fuel) (readBE4 a b c d') s
            .ok (.list xs, s)
        | _ => .error .structError
      else if t = 0x07 then do
        let (d, s) ← readExact 4 s
        match d with
        | [a, b, c, d'] => do
            let (xs, s) ← unpackElems (unpackF fuel) (readBE4 a b c d') s
            .ok (.tuple xs, s)
        | _ => .error .structError
      else if t = 0x08 then do
        let (d, s) ← readExact 4 s
        match d with
        | [a, b, c, d'] => do
            let (kvs, s) ← unpackPairs (unpackF fuel) (readBE4 a b c d') s
            .ok (.dict kvs, s)
        | _ => .error .structError
      else if t = 0x09 then .error .unmodeled
      else if t = 0x0A then do
        let (d, s) ← readExact 4 s
        match d with
        | [a, b, c, d'] =>
            let (p, s) := readUpTo (readBE4 a b c d') s
            .ok (.path p, s)
        | _ => .error .structError
      else if t = 0x0B then do
        let (d, s) ← readExact 8 s
        match d with
        | [a, b, c, d', e, f, g, h] => .ok (.datetimeBits (readBE8 a b c d' e f g h), s)
        | _ => .error .structError
      else if t = 0x0C then do
        let (d, s) ← readExact 4 s
        match d with
        | [a, b, c, d'] =>
            let (cls, s) := readUpTo (readBE4 a b c d') s
            match readExact 4 s with
            | .error e => .error e
            | .ok (d2, s) =>
              match d2 with
              | [a2, b2, c2, d2'] =>
                  let (nm, s) := readUpTo (readBE4 a2 b2 c2 d2') s
                  .ok (.enumData cls nm, s)
              | _ => .error .structError
        | _ => .error .structError
      else if t = 0x0D then do
        let (d, s) ← readExact 4 s
        match d with
        | [a, b, c, d'] => do
            let (cls, s) := readUpTo (readBE4 a b c d') s
            let (pd, s) ← unpackF fuel s
            .ok (.baseParamsData cls pd, s)
        | _ => .error .structError
      else if t = 0x0E then do
        let (d, s) ← readExact 4 s
        match d with
        | [a, b, c, d'] =>
            let (p, s) := readUpTo (readBE4 a b c d') s
            .ok (.bytes p, s)
        | _ => .error .structError
      else if t = 0x0F then do
        let (d, s) ← readExact 4 s
        match d with
        | [a, b, c, d'] => do
            let (xs, s) ← unpackElems (unpackF fuel) (readBE4 a b c d') s
            .ok (.setData xs, s)
        | _ => .error .structError
      else .error .unknownTag

/-- The top-level decoder: `unpack_obj` on a byte stream.  The fuel
`s.length + 1` over-approximates the recursion depth (every recursive call
first consumes at least one marker byte). -/
def unpack_obj (s : List Nat) : Except UErr (Obj × List Nat) :=
  unpackF (s.length + 1) s

/-! ## Round-trip lemmas for the codec -/

theorem readBE4_be4 (n : Nat) (h : n < 2 ^ 32) :
    readBE4 (n / 2 ^ 24 % 256) (n / 2 ^ 16 % 256) (n / 2 ^ 8 % 256) (n % 256) = n := by
  unfold readBE4; omega

theorem readBE8_be8 (n : Nat) (h : n < 2 ^ 64) :
    readBE8 (n / 2 ^ 56 % 256) (n / 2 ^ 48 % 256) (n / 2 ^ 40 % 256) (n / 2 ^ 32 % 256)
      (n / 2 ^ 24 % 256) (n / 2 ^ 16 % 256) (n / 2 ^ 8 % 256) (n % 256) = n := by
  unfold readBE8; omega

theorem toU64_lt (i : Int) : toU64 i < 2 ^ 64 := by
  unfold toU64; omega

theorem sign64_toU64 (i : Int) (h1 : -(2 ^ 63) ≤ i) (h2 : i < 2 ^ 63) :
    sign64 (toU64 i) = i := by
  unfold sign64 toU64
  split <;> omega

theorem readExact_append (k : Nat) (l rest : List Nat) (h : l.length = k) :
    readExact k (l ++ rest) = .ok (l, rest) := by
  subst h
  unfold readExact
  rw [if_neg (by simp), List.take_left, List.drop_left]

theorem readUpTo_append (k : Nat) (l rest : List Nat) (h : l.length = k) :
    readUpTo k (l ++ rest) = (l, rest) := by
  subst h
  unfold readUpTo
  rw [List.take_left, List.drop_left]

theorem readUpTo_short (k : Nat) (s : List Nat) (h : s.length ≤ k) :
    readUpTo k s = (s, []) := by
  unfold readUpTo
  rw [List.take_of_length_le h, List.drop_of_length_le h]

/-- NaN detection on an IEEE-754 bit pattern: exponent all ones, nonzero
mantissa.  For such patterns Python `x == x` is `False`, so they are excluded
from the round-trip universe. -/
def isNaN64 (b : Nat) : Bool := (b / 2 ^ 52 % 2 ^ 11 == 2047) && (b % 2 ^ 52 != 0)

mutual

/-- The self-describing subset of the wire universe: values whose decoded form
is Python-`==` to the encoded one.  Enum values decode to `EnumData` markers,
`BaseParams` objects to `BaseParamsData` markers, and NaN floats fail
reflexivity, so those are excluded; sets and datetimes are unmodelled. -/
def plainObj : Obj → Bool
  | .none => true
  | .bool _ => true
  | .int _ => true
  | .floatBits b => !isNaN64 b
  | .str _ => true
  | .bytes _ => true
  | .path _ => true
  | .list xs => plainElems xs
  | .tuple xs => plainElems xs
  | .dict kvs => plainPairs kvs
  | .enumVal _ _ => false
  | .enumData _ _ => false
  | .baseParams _ _ => false
  | .baseParamsData _ _ => false
  | .datetimeBits _ => false
  | .setData _ => false

def plainElems : List Obj → Bool
  | [] => true
  | x :: xs => plainObj x && plainElems xs

def plainPairs : List (Obj × Obj) → Bool
  | [] => true
  | (k, v) :: kvs => plainObj k && plainObj v && plainPairs kvs

end

theorem excBind_ok {ε α β : Type} (a : α) (f : α → Except ε β) :
    (Except.ok a >>= f) = f a := rfl

theorem excBind_error {ε α β : Type} (e : ε) (f : α → Except ε β) :
    ((Except.error e : Except ε α) >>= f) = Except.error e := rfl

/-- `packElems` of a cons must decompose as the pack of the head followed by
the pack of the tail. -/
theorem packElems_cons (x : Obj) (xs : List Obj) (body : List Nat)
    (h : packElems (x :: xs) = some body) :
    ∃ b body', pack_obj x = some b ∧ packElems xs = some body' ∧ body = b ++ body' := by
  unfold packElems at h
  cases hb : pack_obj x with
  | none => rw [hb] at h; simp at h
  | some b =>
    rw [hb] at h
    cases hbs : packElems xs with
    | none => rw [hbs] at h; simp at h
    | some body' =>
      rw [hbs] at h
      simp at h
      exact ⟨b, body', rfl, rfl, h.symm⟩

theorem packPairs_cons (k v : Obj) (kvs : List (Obj × Obj)) (body : List Nat)
    (h : packPairs ((k, v) :: kvs) = some body) :
    ∃ bk bv body', pack_obj k = some bk ∧ pack_obj v = some bv ∧
      packPairs kvs = some body' ∧ body = bk ++ (bv ++ body') := by
  unfold packPairs at h
  cases hk : pack_obj k with
  | none => rw [hk] at h; simp at h
  | some bk =>
    rw [hk] at h
    cases hv : pack_obj v with
    | none => rw [hv] at h; simp at h
    | some bv =>
      rw [hv] at h
      cases hbs : packPairs kvs with
      | none => rw [hbs] at h; simp at h
      | some body' =>
        rw [hbs] at h
        simp at h
        exact ⟨bk, bv, body', rfl, rfl, rfl, h.symm⟩

/-- Decoding the concatenated element encodings with the element parser
`unpackF f` recovers the elements, provided the parser is already known to
round-trip each element (supplied as a hypothesis so the main induction can
discharge it). -/
theorem unpackElems_sound (f : Nat) (xs : List Obj) :
    ∀ (body rest : List Nat), packElems xs = some body → body.length ≤ f →
    (∀ x ∈ xs, ∀ bsx restx, pack_obj x = some bsx → bsx.length ≤ f →
      unpackF f (bsx ++ restx) = .ok (x, restx)) →
    unpackElems (unpackF f) xs.length (body ++ rest) = .ok (xs, rest) := by
  induction xs with
  | nil =>
    intro body rest hp _ _
    unfold packElems at hp
    simp at hp
    subst hp
    simp [unpackElems]
  | cons x xs ih =>
    intro body rest hp hlen H
    obtain ⟨b, body', hx, hxs, rfl⟩ := packElems_cons x xs body hp
    simp only [List.length_cons, unpackElems, List.append_assoc]
    rw [H x (by simp) b (body' ++ rest) hx (by simp at hlen ⊢; omega)]
    simp only [excBind_ok]
    rw [ih body' rest hxs (by simp at hlen ⊢; omega)
      (fun y hy => H y (by simp [hy]))]
    rfl

/-- The key/value analogue of `unpackElems_sound`. -/
theorem unpackPairs_sound (f : Nat) (kvs : List (Obj × Obj)) :
    ∀ (body rest : List Nat), packPairs kvs = some body → body.length ≤ f →
    (∀ p ∈ kvs, ∀ bsx restx,
      (pack_obj p.1 = some bsx → bsx.length ≤ f → unpackF f (bsx ++ restx) = .ok (p.1, restx)) ∧
      (pack_obj p.2 = some bsx → bsx.length ≤ f → unpackF f (bsx ++ restx) = .ok (p.2, restx))) →
    unpackPairs (unpackF f) kvs.length (body ++ rest) = .ok (kvs, rest) := by
  induction kvs with
  | nil =>
    intro body rest hp _ _
    unfold packPairs at hp
    simp at hp
    subst hp
    simp [unpackPairs]
  | cons p kvs ih =>
    intro body rest hp hlen H
    obtain ⟨k, v⟩ := p
    obtain ⟨bk, bv, body', hk, hv, hkvs, rfl⟩ := packPairs_cons k v kvs body hp
    simp only [List.length_cons, unpackPairs, List.append_assoc]
    rw [(H (k, v) (by simp) bk (bv ++ (body' ++ rest))).1 hk (by simp at hlen ⊢; omega)]
    simp only [excBind_ok]
    rw [(H (k, v) (by simp) bv (body' ++ rest)).2 hv (by simp at hlen ⊢; omega)]
    simp only [excBind_ok]
    rw [ih body' rest hkvs (by simp at hlen ⊢; omega)
      (fun q hq => H q (by simp [hq]))]
    rfl

theorem plainElems_mem {xs : List Obj} (h : plainElems xs = true) {x : Obj}
    (hx : x ∈ xs) : plainObj x = true := by
  induction xs with
  | nil => cases hx
  | cons y ys ih =>
    unfold plainElems at h
    rw [Bool.and_eq_true] at h
    cases hx with
    | head => exact h.1
    | tail _ hx2 => exact ih h.2 hx2

theorem plainPairs_mem {kvs : List (Obj × Obj)} (h : plainPairs kvs = true)
    {k v : Obj} (hkv : (k, v) ∈ kvs) : plainObj k = true ∧ plainObj v = true := by
  induction kvs with
  | nil => cases hkv
  | cons p ps ih =>
    obtain ⟨k0, v0⟩ := p
    unfold plainPairs at h
    rw [Bool.and_eq_true, Bool.and_eq_true] at h
    cases hkv with
    | head => exact ⟨h.1.1, h.1.2⟩
    | tail _ hkv2 => exact ih h.2 hkv2

theorem sizeOf_fst_lt {k v : Obj} {kvs : List (Obj × Obj)} (h : (k, v) ∈ kvs) :
    sizeOf k < sizeOf kvs := by
  have := List.sizeOf_lt_of_mem h
  simp at this
  omega

theorem sizeOf_snd_lt {k v : Obj} {kvs : List (Obj × Obj)} (h : (k, v) ∈ kvs) :
    sizeOf v < sizeOf kvs := by
  have := List.sizeOf_lt_of_mem h
  simp at this
  omega

theorem unpackF_pack (v : Obj) :
    ∀ bs, plainObj v = true → pack_obj v = some bs →
    ∀ f rest, bs.length ≤ f → unpackF f (bs ++ rest) = .ok (v, rest) := by
  cases v with
  | none =>
    intro bs _ hp f rest hf
    simp [pack_obj] at hp
    subst hp
    obtain ⟨f', rfl⟩ : ∃ f', f = f' + 1 := ⟨f - 1, by simp at hf; omega⟩
    simp [unpackF]
  | bool b =>
    intro bs _ hp f rest hf
    cases b <;> simp [pack_obj] at hp <;> subst hp <;>
      obtain ⟨f', rfl⟩ : ∃ f', f = f' + 1 := ⟨f - 1, by simp at hf; omega⟩ <;>
      simp [unpackF]
  | int i =>
    intro bs _ hp f rest hf
    unfold pack_obj at hp
    split at hp
    case isTrue hrange =>
      simp at hp
      subst hp
      obtain ⟨f', rfl⟩ : ∃ f', f = f' + 1 := ⟨f - 1, by simp at hf; omega⟩
      simp only [List.cons_append, unpackF]
      norm_num
      rw [readExact_append 8 (be8 (toU64 i)) rest (by simp [be8])]
      simp only [excBind_ok, be8]
      rw [readBE8_be8 (toU64 i) (toU64_lt i), sign64_toU64 i hrange.1 hrange.2]
    case isFalse => simp at hp
  | floatBits b =>
    intro bs _ hp f rest hf
    unfold pack_obj at hp
    split at hp
    case isTrue hlt =>
      simp at hp
      subst hp
      obtain ⟨f', rfl⟩ : ∃ f', f = f' + 1 := ⟨f - 1, by simp at hf; omega⟩
      simp only [List.cons_append, unpackF]
      norm_num
      rw [readExact_append 8 (be8 b) rest (by simp [be8])]
      simp only [excBind_ok, be8]
      rw [readBE8_be8 b hlt]
    case isFalse => simp at hp
  | str s =>
    intro bs _ hp f rest hf
    unfold pack_obj be4? at hp
    split at hp
    case isTrue hlt =>
      simp at hp
      subst hp
      obtain ⟨f', rfl⟩ : ∃ f', f = f' + 1 := ⟨f - 1, by simp at hf; omega⟩
      simp only [List.cons_append, List.append_assoc, unpackF]
      norm_num
      rw [readExact_append 4 (be4 s.length) (s ++ rest) (by simp [be4])]
      simp only [excBind_ok, be4]
      rw [readBE4_be4 s.length hlt, readUpTo_append s.length s rest rfl]
    case isFalse => simp at hp
  | bytes s =>
    intro bs _ hp f rest hf
    unfold pack_obj be4? at hp
    split at hp
    case isTrue hlt =>
      simp at hp
      subst hp
      obtain ⟨f', rfl⟩ : ∃ f', f = f' + 1 := ⟨f - 1, by simp at hf; omega⟩
      simp only [List.cons_append, List.append_assoc, unpackF]
      norm_num
      rw [readExact_append 4 (be4 s.length) (s ++ rest) (by simp [be4])]
      simp only [excBind_ok, be4]
      rw [readBE4_be4 s.length hlt, readUpTo_append s.length s rest rfl]
    case isFalse => simp at hp
  | path s =>
    intro bs _ hp f rest hf
    unfold pack_obj be4? at hp
    split at hp
    case isTrue hlt =>
      simp at hp
      subst hp
      obtain ⟨f', rfl⟩ : ∃ f', f = f' + 1 := ⟨f - 1, by simp at hf; omega⟩
      simp only [List.cons_append, List.append_assoc, unpackF]
      norm_num
      rw [readExact_append 4 (be4 s.length) (s ++ rest) (by simp [be4])]
      simp only [excBind_ok, be4]
      rw [readBE4_be4 s.length hlt, readUpTo_append s.length s rest rfl]
    case isFalse => simp at hp
  | list xs =>
    intro bs hpl hp f rest hf
    unfold plainObj at hpl
    unfold pack_obj be4? at hp
    split at hp
    case isTrue hlt =>
      cases hbody : packElems xs with
      | none => rw [hbody] at hp; simp at hp
      | some body =>
        rw [hbody] at hp
        simp at hp
        subst hp
        obtain ⟨f', rfl⟩ : ∃ f', f = f' + 1 := ⟨f - 1, by simp at hf; omega⟩
        simp only [List.cons_append, List.append_assoc, unpackF]
        norm_num
        rw [readExact_append 4 (be4 xs.length) (body ++ rest) (by simp [be4])]
        simp only [excBind_ok, be4]
        rw [readBE4_be4 xs.length hlt]
        rw [unpackElems_sound f' xs body rest hbody (by simp at hf; omega)
          (fun x hx bsx restx hpx hlx =>
            unpackF_pack x bsx (plainElems_mem hpl hx) hpx f' restx hlx)]
        rfl
    case isFalse => simp at hp
  | tuple xs =>
    intro bs hpl hp f rest hf
    unfold plainObj at hpl
    unfold pack_obj be4? at hp
    split at hp
    case isTrue hlt =>
      cases hbody : packElems xs with
      | none => rw [hbody] at hp; simp at hp
      | some body =>
        rw [hbody] at hp
        simp at hp
        subst hp
        obtain ⟨f', rfl⟩ : ∃ f', f = f' + 1 := ⟨f - 1, by simp at hf; omega⟩
        simp only [List.cons_append, List.append_assoc, unpackF]
        norm_num
        rw [readExact_append 4 (be4 xs.length) (body ++ rest) (by simp [be4])]
        simp only [excBind_ok, be4]
        rw [readBE4_be4 xs.length hlt]
        rw [unpackElems_sound f' xs body rest hbody (by simp at hf; omega)
          (fun x hx bsx restx hpx hlx =>
            unpackF_pack x bsx (plainElems_mem hpl hx) hpx f' restx hlx)]
        rfl
    case isFalse => simp at hp
  | dict kvs =>
    intro bs hpl hp f rest hf
    unfold plainObj at hpl
    unfold pack_obj be4? at hp
    split at hp
    case isTrue hlt =>
      cases hbody : packPairs kvs with
      | none => rw [hbody] at hp; simp at hp
      | some body =>
        rw [hbody] at hp
        simp at hp
        subst hp
        obtain ⟨f', rfl⟩ : ∃ f', f = f' + 1 := ⟨f - 1, by simp at hf; omega⟩
        simp only [List.cons_append, List.append_assoc, unpackF]
        norm_num
        rw [readExact_append 4 (be4 kvs.length) (body ++ rest) (by simp [be4])]
        simp only [excBind_ok, be4]
        rw [readBE4_be4 kvs.length hlt]
        rw [unpackPairs_sound f' kvs body rest hbody (by simp at hf; omega)
          (fun p hp2 bsx restx =>
            ⟨fun hpx hlx =>
              unpackF_pack p.1 bsx (plainPairs_mem hpl (by simpa using hp2)).1 hpx f' restx hlx,
             fun hpx hlx =>
              unpackF_pack p.2 bsx (plainPairs_mem hpl (by simpa using hp2)).2 hpx f' restx hlx⟩)]
        rfl
    case isFalse => simp at hp
  | enumVal cls nm => intro bs hpl; unfold plainObj at hpl; simp at hpl
  | enumData cls nm => intro bs hpl; unfold plainObj at hpl; simp at hpl
  | baseParams cls d => intro bs hpl; unfold plainObj at hpl; simp at hpl
  | baseParamsData cls d => intro bs hpl; unfold plainObj at hpl; simp at hpl
  | datetimeBits b => intro bs hpl; unfold plainObj at hpl; simp at hpl
  | setData xs => intro bs hpl; unfold plainObj at hpl; simp at hpl
termination_by sizeOf v
decreasing_by
  all_goals simp
  · have := List.sizeOf_lt_of_mem hx; omega
  · have := List.sizeOf_lt_of_mem hx; omega
  · have h1 := sizeOf_fst_lt (k := p.1) (v := p.2) (by simpa using hp2)
    omega
  · have h2 := sizeOf_snd_lt (k := p.1) (v := p.2) (by simpa using hp2)
    omega

/-! ## Claim C1 (round-trip) and claim C7 (decode failures) -/

/-- C1 (amended): for every value in the self-describing subset of the wire
universe (none, bools, 64-bit ints, non-NaN floats, strings, bytes, paths,
and lists/tuples/dicts thereof — `plainObj`), decoding the bytes produced by
`pack_obj` yields the original value and leaves trailing bytes untouched.
Enum values and nested `BaseParams` objects are excluded: `unpack_obj` returns
`EnumData`/`BaseParamsData` markers for them (see the counterexample). -/
theorem pack_unpack_roundtrip_plain (v : Obj) (bs rest : List Nat)
    (h1 : plainObj v = true) (h2 : pack_obj v = some bs) :
    unpack_obj (bs ++ rest) = .ok (v, rest) := by
  unfold unpack_obj
  exact unpackF_pack v bs h1 h2 _ rest (by simp; omega)

/-- Witness for C1: a concrete nested dict/list/tuple/path/bytes/float value
round-trips through the codec. -/
theorem pack_unpack_roundtrip_plain_witness :
    plainObj (.dict [(.str [97], .list [.int 5, .tuple [.bool true, .none],
        .path [47, 116]]), (.bytes [1, 2], .floatBits 4602891378046628709)]) = true ∧
    unpack_obj ([8, 0, 0, 0, 2, 5, 0, 0, 0, 1, 97, 6, 0, 0, 0, 3, 3, 0, 0, 0, 0, 0, 0, 0,
        5, 7, 0, 0, 0, 2, 2, 0, 10, 0, 0, 0, 2, 47, 116, 14, 0, 0, 0, 2, 1, 2, 4, 63,
        224, 193, 82, 56, 45, 115, 101] ++ []) =
      .ok (.dict [(.str [97], .list [.int 5, .tuple [.bool true, .none],
        .path [47, 116]]), (.bytes [1, 2], .floatBits 4602891378046628709)], []) :=
  ⟨rfl, pack_unpack_roundtrip_plain
    (.dict [(.str [97], .list [.int 5, .tuple [.bool true, .none],
      .path [47, 116]]), (.bytes [1, 2], .floatBits 4602891378046628709)])
    [8, 0, 0, 0, 2, 5, 0, 0, 0, 1, 97, 6, 0, 0, 0, 3, 3, 0, 0, 0, 0, 0, 0, 0,
     5, 7, 0, 0, 0, 2, 2, 0, 10, 0, 0, 0, 2, 47, 116, 14, 0, 0, 0, 2, 1, 2, 4, 63,
     224, 193, 82, 56, 45, 115, 101] [] rfl rfl⟩

/-- Counterexample to C1 as stated: an enum value packs fine, but unpacking
its bytes returns the `EnumData` marker dataclass, which is not equal to the
original enum member — so `decode (encode v) = v` fails for enum values. -/
theorem pack_unpack_enum_counterexample :
    pack_obj (.enumVal [69] [97]) = some [0x0C, 0, 0, 0, 1, 69, 0, 0, 0, 1, 97] ∧
    unpack_obj [0x0C, 0, 0, 0, 1, 69, 0, 0, 0, 1, 97] = .ok (.enumData [69] [97], []) ∧
    Obj.enumData [69] [97] ≠ Obj.enumVal [69] [97] :=
  ⟨rfl, rfl, fun h => Obj.noConfusion h⟩

theorem unpack_unknown_tag (t : Nat) (s : List Nat) (h : 0x0F < t) :
    unpack_obj (t :: s) = .error .unknownTag := by
  have h0 : ¬ t = 0x00 := by omega
  have h1 : ¬ t = 0x01 := by omega
  have h2 : ¬ t = 0x02 := by omega
  have h3 : ¬ t = 0x03 := by omega
  have h4 : ¬ t = 0x04 := by omega
  have h5 : ¬ t = 0x05 := by omega
  have h6 : ¬ t = 0x06 := by omega
  have h7 : ¬ t = 0x07 := by omega
  have h8 : ¬ t = 0x08 := by omega
  have h9 : ¬ t = 0x09 := by omega
  have h10 : ¬ t = 0x0A := by omega
  have h11 : ¬ t = 0x0B := by omega
  have h12 : ¬ t = 0x0C := by omega
  have h13 : ¬ t = 0x0D := by omega
  have h14 : ¬ t = 0x0E := by omega
  have h15 : ¬ t = 0x0F := by omega
  simp only [unpack_obj, List.length_cons, unpackF, h0, h1, h2, h3, h4, h5, h6, h7, h8,
    h9, h10, h11, h12, h13, h14, h15, if_false]

theorem unpack_short_length_prefix (s : List Nat) (h : s.length < 4) :
    unpack_obj (0x05 :: s) = .error .structError := by
  simp only [unpack_obj, List.length_cons, unpackF, readExact, if_pos h]
  norm_num
  rw [excBind_error]

theorem unpack_short_int_payload (s : List Nat) (h : s.length < 8) :
    unpack_obj (0x03 :: s) = .error .structError := by
  simp only [unpack_obj, List.length_cons, unpackF, readExact, if_pos h]
  norm_num
  rw [excBind_error]

theorem unpack_truncated_str_payload (len : Nat) (s : List Nat)
    (h1 : s.length < len) (h2 : len < 2 ^ 32) (_h3 : ∀ b ∈ s, b < 128) :
    unpack_obj (0x05 :: be4 len ++ s) = .ok (.str s, []) := by
  simp only [unpack_obj, List.cons_append, List.length_cons, unpackF]
  norm_num
  rw [readExact_append 4 (be4 len) s (by simp [be4])]
  simp only [excBind_ok, be4]
  rw [readBE4_be4 len h2]
  rw [readUpTo_short len s (by omega)]

/-- C7 (amended): `unpack_obj` fails with the unknown-marker `ValueError` on
every unrecognised tag byte, with `EOFError` on an empty stream, and with
`struct.error` when a fixed-size field (a 4-byte length prefix or an 8-byte
int payload) is cut short; but a string payload cut short after its length
prefix is NOT an error — the decoder returns the truncated string (the ASCII
hypothesis keeps the model's identity UTF-8 decode faithful to Python). -/
theorem unpack_error_behavior :
    (∀ (t : Nat) (s : List Nat), 0x0F < t → unpack_obj (t :: s) = .error .unknownTag) ∧
    unpack_obj [] = .error .eof ∧
    (∀ s : List Nat, s.length < 4 → unpack_obj (0x05 :: s) = .error .structError) ∧
    (∀ s : List Nat, s.length < 8 → unpack_obj (0x03 :: s) = .error .structError) ∧
    (∀ (len : Nat) (s : List Nat), s.length < len → len < 2 ^ 32 → (∀ b ∈ s, b < 128) →
      unpack_obj (0x05 :: be4 len ++ s) = .ok (.str s, [])) :=
  ⟨unpack_unknown_tag, rfl, unpack_short_length_prefix, unpack_short_int_payload,
   unpack_truncated_str_payload⟩

/-- Witness for C7 at concrete inputs. -/
theorem unpack_error_behavior_witness :
    unpack_obj [0x10] = .error .unknownTag ∧
    unpack_obj [0x05, 0, 0] = .error .structError ∧
    unpack_obj [0x03, 1, 2, 3] = .error .structError ∧
    unpack_obj (0x05 :: be4 3 ++ [104]) = .ok (.str [104], []) :=
  ⟨unpack_error_behavior.1 0x10 [] (by norm_num),
   unpack_error_behavior.2.2.1 [0, 0] (by norm_num),
   unpack_error_behavior.2.2.2.1 [1, 2, 3] (by norm_num),
   unpack_error_behavior.2.2.2.2 3 [104] (by norm_num) (by norm_num) (by decide)⟩

/-- Counterexample to C7 as stated: the stream announces a 5-byte string
payload but ends after one byte, yet `unpack_obj` returns the truncated
one-byte string instead of a truncated-stream error. -/
theorem truncated_payload_counterexample :
    unpack_obj [0x05, 0, 0, 0, 5, 97] = .ok (.str [97], []) := rfl

/-! # Part 2: the relaxed coercion engine (`_wrangle_type.py`)

Python values are modelled by `PyVal` over the subset of the declared-type
grammar the cited code paths exercise: `int`, `float`, `bool`, `str` and
unions of these.  Python floats are modelled as rationals taken exactly —
faithful for the short dyadic decimals used in the theorems (e.g. `1.5`,
which is exactly representable in binary64).  Python string conversions are
modelled for the ASCII core of the grammar (no underscores in numeric
literals, no exponent/`inf`/`nan` float forms, ASCII whitespace stripping);
no theorem below depends on the unmodelled fringe. -/

/-- A Python value, as it flows through `wrangle_type`. -/
inductive PyVal where
  | int (i : Int)
  | float (q : Rat)
  | bool (b : Bool)
  | str (s : String)
  | none
  | tuple (xs : List PyVal)

/-- A declared target type: the immutable base types handled by
`_handle_base_type` plus `Union[...]`. -/
inductive PyType where
  | int | float | bool | str
  | union (args : List PyType)

/-- The numeric view a Python `==` comparison uses: `bool` is a subclass of
`int` and compares as `0`/`1`; `int` and `float` compare by value. -/
def pyNumVal : PyVal → Option Rat
  | .int i => some i
  | .float q => some q
  | .bool b => some (cond b 1 0)
  | _ => Option.none

mutual

/-- Python `==` on the modelled value universe: numeric values compare through
the numeric tower, strings and `None` by identity of content, tuples
elementwise; mixed kinds are unequal. -/
def pyEqB : PyVal → PyVal → Bool
  | .str s, .str t => s == t
  | .none, .none => true
  | .tuple xs, .tuple ys => pyEqList xs ys
  | v, w =>
    match pyNumVal v, pyNumVal w with
    | some a, some b => a == b
    | _, _ => false

def pyEqList : List PyVal → List PyVal → Bool
  | [], [] => true
  | x :: xs, y :: ys => pyEqB x y && pyEqList xs ys
  | _, _ => false

end

/-- Python `int(float)`: truncation toward zero. -/
def ratTrunc (q : Rat) : Int := q.num.tdiv q.den

/-- ASCII whitespace, as Python `str.strip()` removes (Python also strips
Unicode spaces; no theorem depends on those). -/
def pyIsSpace (c : Char) : Bool :=
  c = ' ' || c = '\t' || c = '\n' || c = '\r' || c = '\x0b' || c = '\x0c'

/-- Python `str.strip()` on the character list. -/
def pyStripChars (cs : List Char) : List Char :=
  ((cs.dropWhile pyIsSpace).reverse.dropWhile pyIsSpace).reverse

/-- Python `int(str)`: strip whitespace, optional sign, decimal digits. -/
def pyIntOfStr (s : String) : Option Int :=
  let cs := pyStripChars s.toList
  let signDigits : Int × List Char :=
    match cs with
    | '+' :: rest => (1, rest)
    | '-' :: rest => (-1, rest)
    | rest => (1, rest)
  if signDigits.2 ≠ [] ∧ signDigits.2.all Char.isDigit then
    some (signDigits.1 *
      (signDigits.2.foldl (fun acc c => acc * 10 + ((c.toNat : Int) - 48)) 0))
  else Option.none

/-- Python `float(str)` on the decimal-literal core of the grammar: strip,
optional sign, digits with at most one point, at least one digit.  The value
is taken exactly (see the section comment). -/
def pyFloatOfStr (s : String) : Option Rat :=
  let cs := pyStripChars s.toList
  let signDigits : Int × List Char :=
    match cs with
    | '+' :: rest => (1, rest)
    | '-' :: rest => (-1, rest)
    | rest => (1, rest)
  let parts := signDigits.2
  let intPart := parts.takeWhile Char.isDigit
  let restPart := parts.dropWhile Char.isDigit
  let fracPart : Option (List Char) :=
    match restPart with
    | [] => some []
    | '.' :: rest => if rest.all Char.isDigit then some rest else Option.none
    | _ => Option.none
  match fracPart with
  | Option.none => Option.none
  | some frac =>
    if intPart = [] ∧ frac = [] then Option.none
    else
      let digitsVal : List Char → Nat := fun ds =>
        ds.foldl (fun acc c => acc * 10 + (c.toNat - 48)) 0
      some (mkRat
        (signDigits.1 * (digitsVal intPart * 10 ^ frac.length + digitsVal frac : Nat))
        (10 ^ frac.length))

/-- The fractional digits of `rem/den`, produced by repeated decimal
expansion (fuel-bounded; ample for binary64 values, whose denominators divide
`10^1074`... the fuel is only a totality device). -/
def decFrac : Nat → Nat → Nat → String
  | 0, _, _ => ""
  | _, 0, _ => ""
  | fuel + 1, rem, den =>
      String.singleton (Char.ofNat (48 + rem * 10 / den)) ++ decFrac fuel (rem * 10 % den) den

/-- Python `str(float)` for the modelled (finite-decimal) values: sign,
integer part, point, exact fractional digits — with Python's trailing `.0`
for whole numbers.  (Python switches to exponent notation for very large or
small magnitudes; not modelled, and no theorem depends on it.) -/
def pyStrOfFloat (q : Rat) : String :=
  let sign := if q < 0 then "-" else ""
  let n := q.num.natAbs
  let ip := n / q.den
  let rem := n % q.den
  let fracs := if rem = 0 then "0" else decFrac 1200 rem q.den
  sign ++ toString ip ++ "." ++ fracs

mutual

/-- Python `repr`, as `str` of a tuple uses it for the elements.  String
quoting is modelled with single quotes (Python picks quotes by content;
the theorems below never exercise strings containing quotes). -/
def pyRepr : PyVal → String
  | .str s => "'" ++ s ++ "'"
  | .int i => toString i
  | .float q => pyStrOfFloat q
  | .bool true => "True"
  | .bool false => "False"
  | .none => "None"
  | .tuple [x] => "(" ++ pyRepr x ++ ",)"
  | .tuple xs => "(" ++ String.intercalate ", " (pyReprList xs) ++ ")"

def pyReprList : List PyVal → List String
  | [] => []
  | x :: xs => pyRepr x :: pyReprList xs

end

/-- Python `str(value)`. -/
def pyStr : PyVal → String
  | .str s => s
  | .int i => toString i
  | .bool true => "True"
  | .bool false => "False"
  | .none => "None"
  | .float q => pyStrOfFloat q
  | .tuple xs => pyRepr (.tuple xs)

/-- Python truthiness, as `bool(value)` — never raises. -/
def pyTruthy : PyVal → Bool
  | .int i => i != 0
  | .float q => q != 0
  | .bool b => b
  | .str s => s != ""
  | .none => false
  | .tuple xs => !xs.isEmpty

/-- `isinstance(value, target_type)` for the base types: note `bool` is a
subclass of `int` in Python. -/
def pyIsInstance : PyVal → PyType → Bool
  | .int _, .int => true
  | .bool _, .int => true
  | .float _, .float => true
  | .bool _, .bool => true
  | .str _, .str => true
  | _, _ => false

/-- Calling the target type as a constructor, `target_type(value)`:
`Except Unit` models the `ValueError`/`TypeError` that
`_handle_base_type` catches. -/
def pyCallType : PyType → PyVal → Except Unit PyVal
  | .int, v =>
    match v with
    | .float q => .ok (.int (ratTrunc q))
    | .str s =>
      match pyIntOfStr s with
      | some i => .ok (.int i)
      | Option.none => .error ()
    | .bool b => .ok (.int (cond b 1 0))
    | .int i => .ok (.int i)
    | .none => .error ()
    | .tuple _ => .error ()
  | .float, v =>
    match v with
    | .float q => .ok (.float q)
    | .int i => .ok (.float i)
    | .bool b => .ok (.float (cond b 1 0))
    | .str s =>
      match pyFloatOfStr s with
      | some q => .ok (.float q)
      | Option.none => .error ()
    | .none => .error ()
    | .tuple _ => .error ()
  | .bool, v => .ok (.bool (pyTruthy v))
  | .str, v => .ok (.str (pyStr v))
  | .union _, _ => .error ()

/-- The result record of `wrangle_type`. -/
structure WrangleTypeReturn where
  converted_value : PyVal
  is_coerced : Bool

/-- The `EMPTY_PARAM` sentinel string (`parametric._const` is not in the
source tree; the value is taken from `_base_params.py`, which defines the
same sentinel). -/
def EMPTY_PARAM : PyVal := .str "___parametric_empty_field"

/-- `_handle_base_type`: an `isinstance` hit is returned uncoerced; otherwise
the target type is called as a constructor and the result marked coerced;
constructor failure becomes the `ValueError` the union loop catches. -/
def handle_base_type (v : PyVal) (t : PyType) : Except Unit WrangleTypeReturn :=
  if pyIsInstance v t then .ok ⟨v, false⟩
  else
    match pyCallType t v with
    | .ok w => .ok ⟨w, true⟩
    | .error _ => .error ()

mutual

/-- `wrangle_type` over the modelled type grammar: base types go to
`_handle_base_type`, unions to `_handle_union_type`. -/
def wrangle_type (v : PyVal) : PyType → Except Unit WrangleTypeReturn
  | .int => handle_base_type v .int
  | .float => handle_base_type v .float
  | .bool => handle_base_type v .bool
  | .str => handle_base_type v .str
  | .union args => handle_union_loop v args EMPTY_PARAM

/-- The body of `_handle_union_type`: children are scanned once, in declared
order, starting from `best_result = EMPTY_PARAM`; an uncoerced result returns
immediately; a coerced success overwrites `best_result` (the guard
`best_result == EMPTY_PARAM or wrangle_type_return.is_coerced` is always true
at that point); failures are skipped; at the end, `best_result != EMPTY_PARAM`
(Python `==`, hence `pyEqB`) decides between success and `ValueError`. -/
def handle_union_loop (v : PyVal) : List PyType → PyVal → Except Unit WrangleTypeReturn
  | [], best => if pyEqB best EMPTY_PARAM then .error () else .ok ⟨best, true⟩
  | t :: rest, best =>
    match wrangle_type v t with
    | .ok r => if r.is_coerced = false then .ok r else handle_union_loop v rest r.converted_value
    | .error _ => handle_union_loop v rest best

end

def firstExact (v : PyVal) (args : List PyType) : Option WrangleTypeReturn :=
  args.findSome? fun t =>
    match wrangle_type v t with
    | .ok r => if r.is_coerced = false then some r else Option.none
    | .error _ => Option.none

def coercedResults (v : PyVal) (args : List PyType) : List PyVal :=
  args.filterMap fun t =>
    match wrangle_type v t with
    | .ok r => if r.is_coerced = true then some r.converted_value else Option.none
    | .error _ => Option.none

def lastD : List PyVal → PyVal → PyVal
  | [], d => d
  | x :: xs, _ => lastD xs x

theorem handle_union_loop_eq (v : PyVal) (args : List PyType) :
    ∀ best : PyVal,
    handle_union_loop v args best =
      match firstExact v args with
      | some r => .ok r
      | Option.none =>
        let b := lastD (coercedResults v args) best
        if pyEqB b EMPTY_PARAM then .error () else .ok ⟨b, true⟩ := by
  induction args with
  | nil =>
    intro best
    simp [handle_union_loop, firstExact, coercedResults, lastD]
  | cons t rest ih =>
    intro best
    rw [handle_union_loop]
    unfold firstExact coercedResults
    rw [List.findSome?_cons, List.filterMap_cons]
    cases hw : wrangle_type v t with
    | ok r =>
      cases hrc : r.is_coerced with
      | false =>
        simp [hrc]
      | true =>
        simp only [hrc, Bool.true_eq_false, reduceIte]
        rw [ih r.converted_value]
        unfold firstExact coercedResults
        rfl
    | error e =>
      simp only []
      rw [ih best]
      unfold firstExact coercedResults
      rfl

/-- C2 (amended): union coercion scans children once, in declared order: the
first child whose `wrangle_type` result needs no coercion is returned
immediately; otherwise `best_result` is overwritten by every coerced success,
so the union returns the LAST successful coercion in declared order, not the
first (or fails when no child succeeds — or when the last success happens to
equal the `EMPTY_PARAM` sentinel string, a faithful artifact of the
sentinel-based loop). -/
theorem handle_union_type_characterization (v : PyVal) (args : List PyType) :
    wrangle_type v (.union args) =
      match firstExact v args with
      | some r => .ok r
      | Option.none =>
        let b := lastD (coercedResults v args) EMPTY_PARAM
        if pyEqB b EMPTY_PARAM then .error () else .ok ⟨b, true⟩ := by
  rw [wrangle_type]
  exact handle_union_loop_eq v args EMPTY_PARAM

/-- Counterexample to C2 as stated: with `Union[bool, str]` and input `5`,
the first child (`bool`) coerces successfully to `True`, but the union
returns the result of the LAST successful coercion, `"5"` — not the first. -/
theorem union_last_coercion_counterexample :
    wrangle_type (.int 5) .bool = .ok ⟨.bool true, true⟩ ∧
    wrangle_type (.int 5) .str = .ok ⟨.str "5", true⟩ ∧
    wrangle_type (.int 5) (.union [.bool, .str]) = .ok ⟨.str "5", true⟩ :=
  ⟨rfl, rfl, rfl⟩

/-! # Part 3: the TypeNode tree variant (`_type_node.py`)

`TNode` models the node kinds the claims exercise: the scalar nodes
(`IntNode`, `FloatNode`, `BoolNode`, `StrNode`, `NoneTypeNode`) and
`TupleNode`.  `from_python_object` is the strict-mode coercion of each node;
scalar nodes use the base-class `isinstance` check (note Python's `bool` is a
subclass of `int`, so `IntNode` accepts `True` unchanged, and `FloatNode`
accepts `int` and `bool` and converts them). -/

inductive TNode where
  | int | float | bool | str | noneType
  | tuple (inner_args : List TNode) (is_ends_with_ellipsis : Bool)

/-- Coercion failures of the TypeNode tree: `TypeCoercionError`, and the bare
`IndexError` that `TupleNode._cast_prolog` lets escape when the input has more
elements than the declared arity. -/
inductive TErr where
  | typeCoercion
  | indexError
  deriving DecidableEq

/-- `TupleNode.__init__`'s `self.is_any_length = is_ends_with_ellipsis |
len(inner_args) == 1`: Python's `|` binds tighter than `==`, so this is
`(int(is_ends_with_ellipsis) | len(inner_args)) == 1` — true exactly for
ellipsis nodes and for single-fixed-type nodes. -/
def is_any_length (inner_args : List TNode) (is_ends_with_ellipsis : Bool) : Bool :=
  ((cond is_ends_with_ellipsis 1 0) ||| inner_args.length) == 1

mutual

/-- `TypeNode.from_python_object` and its overrides.  The `TupleNode` case
folds `_cast_prolog` in: the prolog walks the input pairing element `i` with
`inner_args[0 if is_any_length else i]` — raising `IndexError` before any
element is coerced when a fixed-arity input is too long (and pairing only the
available elements when it is too short) — after which the elements are
coerced left to right. -/
def from_python_object : TNode → PyVal → Except TErr PyVal
  | .int, v =>
    match v with
    | .int _ | .bool _ => .ok v
    | _ => .error .typeCoercion
  | .float, v =>
    match v with
    | .float q => .ok (.float q)
    | .int i => .ok (.float i)
    | .bool b => .ok (.float (cond b 1 0))
    | _ => .error .typeCoercion
  | .bool, v =>
    match v with
    | .bool _ => .ok v
    | _ => .error .typeCoercion
  | .str, v =>
    match v with
    | .str _ => .ok v
    | _ => .error .typeCoercion
  | .noneType, v =>
    match v with
    | .none => .ok v
    | _ => .error .typeCoercion
  | .tuple inner_args ell, v =>
    match v with
    | .tuple vs =>
      if is_any_length inner_args ell then
        match inner_args with
        | [] => if vs.isEmpty then .ok (.tuple []) else .error .indexError
        | t0 :: _ => (coerceRep t0 vs).map PyVal.tuple
      else if inner_args.length < vs.length then .error .indexError
      else (coerceZip inner_args vs).map PyVal.tuple
    | _ => .error .typeCoercion

/-- The element loop for an any-length `TupleNode`: every element against the
single child node. -/
def coerceRep (t : TNode) : List PyVal → Except TErr (List PyVal)
  | [] => .ok []
  | v :: vs => do
    let r ← from_python_object t v
    let rs ← coerceRep t vs
    .ok (r :: rs)

/-- The element loop for a fixed-arity `TupleNode`: element `i` against child
`i` (inputs longer than the arity are cut off by the `IndexError` pre-check in
`from_python_object`, matching `_cast_prolog`). -/
def coerceZip : List TNode → List PyVal → Except TErr (List PyVal)
  | _, [] => .ok []
  | [], _ :: _ => .error .indexError
  | t :: ts, v :: vs => do
    let r ← from_python_object t v
    let rs ← coerceZip ts vs
    .ok (r :: rs)

end

/-- `value.lower().strip()` (ASCII model; see the `pyIsSpace` note). -/
def pyLowerStrip (s : String) : String :=
  String.mk (pyStripChars (s.toList.map Char.toLower))

/-- Membership of `value.lower().strip()` in the false token set
`{"0", "-1", "off", "f", "false", "n", "no"}`. -/
def inFalseTokens (t : String) : Prop :=
  t = "0" ∨ t = "-1" ∨ t = "off" ∨ t = "f" ∨ t = "false" ∨ t = "n" ∨ t = "no"

/-- Membership in the true token set `{"1", "on", "t", "true", "y", "yes"}`. -/
def inTrueTokens (t : String) : Prop :=
  t = "1" ∨ t = "on" ∨ t = "t" ∨ t = "true" ∨ t = "y" ∨ t = "yes"

instance (t : String) : Decidable (inFalseTokens t) := by unfold inFalseTokens; infer_instance

instance (t : String) : Decidable (inTrueTokens t) := by unfold inTrueTokens; infer_instance

/-- `BoolNode.from_str`: the fixed token sets, checked on the lowered,
stripped string — the false set first, as in the source. -/
def BoolNode.from_str (s : String) : Except TErr PyVal :=
  if inFalseTokens (pyLowerStrip s) then .ok (.bool false)
  else if inTrueTokens (pyLowerStrip s) then .ok (.bool true)
  else .error .typeCoercion

/-- `NoneTypeNode.from_str`: `"none"`/`"null"` after lowering and stripping. -/
def NoneTypeNode.from_str (s : String) : Except TErr PyVal :=
  if pyLowerStrip s = "none" ∨ pyLowerStrip s = "null" then .ok .none
  else .error .typeCoercion

/-! ## Claims C3 (lossless relaxed numeric coercion), C8 (FromText tokens),
C10 (single-fixed-type tuples) -/

/-- C3 (amended): the wrangle engine's relaxed coercion to `int` simply calls
Python `int()`, truncating every float toward zero — there is no
information-loss check; the string `"1.5"` still reaches `float` in
`Int | Float` only because `int("1.5")` raises; and the TypeNode-tree
`IntNode` (strict `isinstance`) never accepts a float at all. -/
theorem relaxed_numeric_behavior :
    (∀ q : Rat, wrangle_type (.float q) .int = .ok ⟨.int (ratTrunc q), true⟩) ∧
    wrangle_type (.str "1.5") (.union [.int, .float]) = .ok ⟨.float (mkRat 3 2), true⟩ ∧
    wrangle_type (.str "1.5") .int = .error () ∧
    (∀ q : Rat, from_python_object .int (.float q) = .error .typeCoercion) :=
  ⟨fun _ => rfl, rfl, rfl, fun _ => rfl⟩

/-- Counterexample to C3 as stated: the float `1.5` DOES coerce into an `Int`
target under the wrangle engine, producing the truncated `1` — a lossy
conversion (`1 ≠ 1.5` under Python `==`). -/
theorem relaxed_int_truncates_counterexample :
    wrangle_type (.float (mkRat 3 2)) .int = .ok ⟨.int 1, true⟩ ∧
    pyEqB (.int 1) (.float (mkRat 3 2)) = false :=
  ⟨rfl, by decide⟩

theorem coerceRep_int_map (is : List Int) :
    coerceRep .int (is.map PyVal.int) = .ok (is.map PyVal.int) := by
  induction is with
  | nil => rfl
  | cons i is ih =>
    simp only [List.map_cons, coerceRep]
    rw [show from_python_object .int (.int i) = .ok (.int i) from rfl, excBind_ok, ih]
    rfl

/-- C10: a tuple node declared with exactly one fixed element type and no
ellipsis behaves exactly like the explicit variadic node (`is_any_length` is
true for both), and in particular accepts integer tuples of every length,
coercing each element against the single child. -/
theorem single_arg_tuple_is_variadic :
    (∀ (t : TNode) (ell : Bool) (v : PyVal),
      from_python_object (.tuple [t] ell) v = from_python_object (.tuple [t] true) v) ∧
    (∀ is : List Int, from_python_object (.tuple [.int] false) (.tuple (is.map PyVal.int)) =
      .ok (.tuple (is.map PyVal.int))) := by
  constructor
  · intro t ell v
    cases ell
    · cases v <;> simp [from_python_object, is_any_length]
    · rfl
  · intro is
    show (coerceRep .int (is.map PyVal.int)).map PyVal.tuple = _
    rw [coerceRep_int_map]
    rfl

/-- C8 (amended): `BoolNode.from_str` recognises exactly the fixed token sets
and `NoneTypeNode.from_str` exactly `"none"`/`"null"` — but on the LOWERED,
WHITESPACE-STRIPPED input (`value.lower().strip()`), not on the raw string as
the claim's case-insensitive-match-only reading states. -/
theorem from_str_token_characterization (s : String) :
    (BoolNode.from_str s = .ok (.bool true) ↔ inTrueTokens (pyLowerStrip s)) ∧
    (BoolNode.from_str s = .ok (.bool false) ↔ inFalseTokens (pyLowerStrip s)) ∧
    (BoolNode.from_str s = .error .typeCoercion ↔
      ¬ inTrueTokens (pyLowerStrip s) ∧ ¬ inFalseTokens (pyLowerStrip s)) ∧
    (NoneTypeNode.from_str s = .ok .none ↔
      pyLowerStrip s = "none" ∨ pyLowerStrip s = "null") := by
  have hdisj : ∀ t : String, inFalseTokens t → inTrueTokens t → False := by
    intro t h1 h2
    unfold inFalseTokens at h1
    unfold inTrueTokens at h2
    rcases h1 with rfl | rfl | rfl | rfl | rfl | rfl | rfl <;> simp [] at h2
  refine ⟨?_, ?_, ?_, ?_⟩
  · unfold BoolNode.from_str
    by_cases h1 : inFalseTokens (pyLowerStrip s)
    · simp only [h1, if_true]
      constructor
      · intro h; cases h
      · intro h2; exact (hdisj _ h1 h2).elim
    · by_cases h2 : inTrueTokens (pyLowerStrip s) <;> simp [h1, h2]
  · unfold BoolNode.from_str
    by_cases h1 : inFalseTokens (pyLowerStrip s)
    · simp [h1]
    · by_cases h2 : inTrueTokens (pyLowerStrip s) <;> simp [h1, h2]
  · unfold BoolNode.from_str
    by_cases h1 : inFalseTokens (pyLowerStrip s)
    · simp only [h1, if_true]
      constructor
      · intro h; cases h
      · intro h; exact (h.2 trivial).elim
    · by_cases h2 : inTrueTokens (pyLowerStrip s) <;> simp [h1, h2]
  · unfold NoneTypeNode.from_str
    by_cases h : pyLowerStrip s = "none" ∨ pyLowerStrip s = "null" <;> simp [h]

/-- Counterexample to C8 as stated: `" true"` (leading space) matches none of
the true tokens case-insensitively, yet `BoolNode.from_str` returns `True`,
because the implementation strips whitespace before matching. -/
theorem bool_from_str_strip_counterexample :
    BoolNode.from_str " true" = .ok (.bool true) ∧
    (["1", "on", "t", "true", "y", "yes"].all
      fun tok => String.mk (" true".toList.map Char.toLower) != tok) = true :=
  ⟨rfl, by decide⟩

theorem coerceZip_spec (ts : List TNode) :
    ∀ (vs rs : List PyVal), coerceZip ts vs = .ok rs →
      rs.length = vs.length ∧ vs.length ≤ ts.length ∧
      ∀ (i : Nat) (t : TNode) (v : PyVal), ts[i]? = some t → vs[i]? = some v →
        ∃ r, rs[i]? = some r ∧ from_python_object t v = .ok r := by
  induction ts with
  | nil =>
    intro vs rs h
    cases vs with
    | nil =>
      unfold coerceZip at h
      simp at h
      subst h
      refine ⟨rfl, by simp, ?_⟩
      intro i t v ht _
      simp at ht
    | cons v vs => unfold coerceZip at h; simp at h
  | cons t ts ih =>
    intro vs rs h
    cases vs with
    | nil =>
      unfold coerceZip at h
      simp at h
      subst h
      refine ⟨rfl, by simp, ?_⟩
      intro i t0 v _ hv
      simp at hv
    | cons v vs =>
      unfold coerceZip at h
      cases hr : from_python_object t v with
      | error e => rw [hr] at h; simp [excBind_error] at h
      | ok r =>
        rw [hr] at h
        rw [excBind_ok] at h
        cases hrs : coerceZip ts vs with
        | error e => rw [hrs] at h; simp [excBind_error] at h
        | ok rs2 =>
          rw [hrs] at h
          rw [excBind_ok] at h
          simp at h
          subst h
          obtain ⟨hlen, hle, hidx⟩ := ih vs rs2 hrs
          refine ⟨by simp [hlen], by simp; omega, ?_⟩
          intro i t0 v0 ht0 hv0
          cases i with
          | zero =>
            simp at ht0 hv0
            subst ht0
            subst hv0
            exact ⟨r, by simp, hr⟩
          | succ j =>
            simp at ht0 hv0
            obtain ⟨r2, hr2, hf2⟩ := hidx j t0 v0 ht0 hv0
            exact ⟨r2, by simpa using hr2, hf2⟩

theorem coerceRep_spec (t : TNode) :
    ∀ (vs rs : List PyVal), coerceRep t vs = .ok rs →
      rs.length = vs.length ∧
      ∀ (i : Nat) (v : PyVal), vs[i]? = some v →
        ∃ r, rs[i]? = some r ∧ from_python_object t v = .ok r := by
  intro vs
  induction vs with
  | nil =>
    intro rs h
    unfold coerceRep at h
    simp at h
    subst h
    refine ⟨rfl, ?_⟩
    intro i v hv
    simp at hv
  | cons v vs ih =>
    intro rs h
    unfold coerceRep at h
    cases hr : from_python_object t v with
    | error e => rw [hr] at h; simp [excBind_error] at h
    | ok r =>
      rw [hr, excBind_ok] at h
      cases hrs : coerceRep t vs with
      | error e => rw [hrs] at h; simp [excBind_error] at h
      | ok rs2 =>
        rw [hrs, excBind_ok] at h
        simp at h
        subst h
        obtain ⟨hlen, hidx⟩ := ih rs2 hrs
        refine ⟨by simp [hlen], ?_⟩
        intro i v0 hv0
        cases i with
        | zero =>
          simp at hv0
          subst hv0
          exact ⟨r, by simp, hr⟩
        | succ j =>
          simp at hv0
          obtain ⟨r2, hr2, hf2⟩ := hidx j v0 hv0
          exact ⟨r2, by simpa using hr2, hf2⟩

/-- C6 (amended): `TupleNode` coercion rejects a non-tuple input before any
element is coerced, and a fixed-arity node rejects inputs LONGER than the
declared arity (with a bare `IndexError` from `_cast_prolog`, not a
length-mismatch coercion error) — but an input SHORTER than the arity is
accepted and silently truncated: success implies only `len(input) ≤ arity`,
each present element having been coerced against the corresponding child;
a variadic node coerces every element against its single child. -/
theorem tuple_fixed_arity_characterization :
    (∀ (inner : List TNode) (ell : Bool) (v : PyVal),
      (∀ xs, v ≠ .tuple xs) → from_python_object (.tuple inner ell) v = .error .typeCoercion) ∧
    (∀ (inner : List TNode) (ell : Bool) (vs : List PyVal),
      is_any_length inner ell = false → inner.length < vs.length →
      from_python_object (.tuple inner ell) (.tuple vs) = .error .indexError) ∧
    (∀ (inner : List TNode) (ell : Bool) (vs rs : List PyVal),
      is_any_length inner ell = false →
      from_python_object (.tuple inner ell) (.tuple vs) = .ok (.tuple rs) →
      vs.length ≤ inner.length ∧ rs.length = vs.length ∧
      ∀ (i : Nat) (t : TNode) (v : PyVal), inner[i]? = some t → vs[i]? = some v →
        ∃ r, rs[i]? = some r ∧ from_python_object t v = .ok r) ∧
    (∀ (t : TNode) (vs rs : List PyVal),
      from_python_object (.tuple [t] true) (.tuple vs) = .ok (.tuple rs) →
      rs.length = vs.length ∧
      ∀ (i : Nat) (v : PyVal), vs[i]? = some v →
        ∃ r, rs[i]? = some r ∧ from_python_object t v = .ok r) := by
  refine ⟨?_, ?_, ?_, ?_⟩
  · intro inner ell v hv
    cases v with
    | tuple xs => exact absurd rfl (hv xs)
    | int i => rfl
    | float q => rfl
    | bool b => rfl
    | str s => rfl
    | none => rfl
  · intro inner ell vs hal hlen
    unfold from_python_object
    rw [hal]
    simp only [Bool.false_eq_true, if_false, if_pos hlen]
  · intro inner ell vs rs hal h
    unfold from_python_object at h
    rw [hal] at h
    simp only [Bool.false_eq_true, if_false] at h
    by_cases hc : inner.length < vs.length
    · rw [if_pos hc] at h
      cases h
    · rw [if_neg hc] at h
      cases hz : coerceZip inner vs with
      | error e => rw [hz] at h; cases h
      | ok rs2 =>
        rw [hz] at h
        simp [Except.map] at h
        subst h
        obtain ⟨hlen, hle, hidx⟩ := coerceZip_spec inner vs rs2 hz
        exact ⟨hle, hlen, hidx⟩
  · intro t vs rs h
    unfold from_python_object at h
    rw [show is_any_length [t] true = true from by simp [is_any_length]] at h
    simp only [if_true] at h
    cases hz : coerceRep t vs with
    | error e => rw [hz] at h; cases h
    | ok rs2 =>
      rw [hz] at h
      simp [Except.map] at h
      subst h
      exact coerceRep_spec t vs rs2 hz

/-- Counterexample to C6 as stated: a fixed-arity `Tuple[Int, Int]` node
accepts the 1-element input `(1,)` and returns `(1,)` — no length mismatch is
raised for short inputs. -/
theorem tuple_short_input_counterexample :
    from_python_object (.tuple [.int, .int] false) (.tuple [.int 1]) = .ok (.tuple [.int 1]) := rfl

/-- Witness for C6 at concrete inputs. -/
theorem tuple_fixed_arity_characterization_witness :
    from_python_object (.tuple [.int, .int] false) (.int 7) = .error .typeCoercion ∧
    from_python_object (.tuple [.int, .int] false) (.tuple [.int 1, .int 2, .int 3]) =
      .error .indexError ∧
    ([PyVal.int 5].length ≤ [TNode.int, TNode.str].length) :=
  ⟨tuple_fixed_arity_characterization.1 [.int, .int] false (.int 7)
      (fun xs h => PyVal.noConfusion h),
   tuple_fixed_arity_characterization.2.1 [.int, .int] false
      [.int 1, .int 2, .int 3] (by decide) (by decide),
   (tuple_fixed_arity_characterization.2.2.1 [.int, .str] false
      [.int 5] [.int 5] (by decide) rfl).1⟩

/-! # Part 4: the typed-object model (`_base_params.py` = v1,
`_base_params2.py` = v2, `_context_manager.py`)

An instance is its class name, its `_name_to_type_node` table (declared
order), its field-value attributes, its `_default_values`, and the
`_is_frozen` flag.  Nested `BaseParams` fields and the
`_inner_params_that_are_baseparam_class` bookkeeping are outside this model
(the claims below are settled on flat objects). -/

structure BaseParamsObj where
  className : String
  name_to_type_node : List (String × TNode)
  values : List (String × PyVal)
  default_values : List (String × PyVal)
  is_frozen : Bool

/-- Errors of the object model: the `RuntimeError` for an unknown override
name, the coercion failure propagating out of `_convert_and_set`, the
`AttributeError` for writes to frozen objects, and the `AttributeError` for
undeclared attributes. -/
inductive OErr where
  | unknownName
  | conversion
  | frozenMutation
  | attrUndefined
  deriving DecidableEq

/-- `_get_value_including_empty` / `getattr(self, name, EMPTY_PARAM)`. -/
def getv (o : BaseParamsObj) (name : String) : PyVal :=
  (o.values.lookup name).getD EMPTY_PARAM

/-- Attribute assignment on the instance `__dict__`. -/
def setField : List (String × PyVal) → String → PyVal → List (String × PyVal)
  | [], k, v => [(k, v)]
  | (k0, v0) :: rest, k, v =>
    if k0 = k then (k, v) :: rest else (k0, v0) :: setField rest k v

/-- v1 `__setattr__` (post-init path): undeclared names other than
`_is_frozen` are rejected, then every write — the flag included — is rejected
while frozen.  (The flag-assignment branch itself carries a `Bool`, not a
field value; the flag paths are modelled where they occur.) -/
def setattr1 (o : BaseParamsObj) (key : String) (value : PyVal) : Except OErr BaseParamsObj :=
  if (o.name_to_type_node.lookup key).isNone ∧ key ≠ "_is_frozen" then .error .attrUndefined
  else if o.is_frozen then .error .frozenMutation
  else .ok { o with values := setField o.values key value }

/-- v2 `__setattr__` (post-init path, for keys other than `_is_frozen`,
whose branch is the flag path the `Override` context manager uses —
modelled in `override_from_dict2` by toggling `is_frozen` directly). -/
def setattr2 (o : BaseParamsObj) (key : String) (value : PyVal) : Except OErr BaseParamsObj :=
  if (o.name_to_type_node.lookup key).isNone then .error .attrUndefined
  else if o.is_frozen then .error .frozenMutation
  else .ok { o with values := setField o.values key value }

/-- v1 `_convert_and_set` with `ConversionFromType.PYTHON_OBJECT` (the mode
`override_from_dict` uses): convert through the field's node, then `setattr`. -/
def convert_and_set1 (o : BaseParamsObj) (name : String) (value : PyVal) :
    Except OErr BaseParamsObj :=
  match o.name_to_type_node.lookup name with
  | Option.none => .error .unknownName
  | some node =>
    match from_python_object node value with
    | .error _ => .error .conversion
    | .ok cv => setattr1 o name cv

/-- v2 `_convert_and_set` (conversion failures are re-wrapped as
`AttributeError`; same error constructor here). -/
def convert_and_set2 (o : BaseParamsObj) (name : String) (value : PyVal) :
    Except OErr BaseParamsObj :=
  match o.name_to_type_node.lookup name with
  | Option.none => .error .unknownName
  | some node =>
    match from_python_object node value with
    | .error _ => .error .conversion
    | .ok cv => setattr2 o name cv

/-- v1 `_override_from_dict`: items are validated and COMMITTED one at a
time, in dict order; the first failure raises with all earlier items already
applied (the returned object is the state at raise time). -/
def override_from_dict1 (o : BaseParamsObj) :
    List (String × PyVal) → Except OErr Unit × BaseParamsObj
  | [] => (.ok (), o)
  | (name, value) :: rest =>
    if (o.name_to_type_node.lookup name).isNone then (.error .unknownName, o)
    else
      match convert_and_set1 o name value with
      | .error e => (.error e, o)
      | .ok o2 => override_from_dict1 o2 rest

/-- The body of v2 `_override_from_dict` inside the `Override` context. -/
def overrideLoop2 (o : BaseParamsObj) :
    List (String × PyVal) → Except OErr Unit × BaseParamsObj
  | [] => (.ok (), o)
  | (name, value) :: rest =>
    if (o.name_to_type_node.lookup name).isNone then (.error .unknownName, o)
    else
      match convert_and_set2 o name value with
      | .error e => (.error e, o)
      | .ok o2 => overrideLoop2 o2 rest

/-- v2 `_override_from_dict`: `with Override(self)` clears `_is_frozen` on
entry and sets it back on exit — also when the body raised (`__exit__` runs
either way); the raised error then propagates. -/
def override_from_dict2 (o : BaseParamsObj) (data : List (String × PyVal)) :
    Except OErr Unit × BaseParamsObj :=
  let r := overrideLoop2 { o with is_frozen := false } data
  (r.1, { r.2 with is_frozen := true })

/-- v1 `__eq__`: any `BaseParams` instance passes the `isinstance` test; then
only SELF's declared fields are compared, with Python `==`. -/
def eq1 (o other : BaseParamsObj) : Bool :=
  o.name_to_type_node.all fun p => pyEqB (getv o p.1) (getv other p.1)

/-- v2 `__eq__`: as v1, but each of self's fields must also be declared on
the other object (`_is_equal_field`'s enum/ndarray special cases do not arise
on this value universe, leaving Python `==`). -/
def eq2 (o other : BaseParamsObj) : Bool :=
  o.name_to_type_node.all fun p =>
    (other.name_to_type_node.lookup p.1).isSome && pyEqB (getv o p.1) (getv other p.1)

/-- v2 `get_non_defaults`: the fields whose current value differs from the
recorded default. -/
def get_non_defaults (o : BaseParamsObj) : List (String × PyVal) :=
  o.default_values.filterMap fun p =>
    if pyEqB p.2 (getv o p.1) then Option.none else some (p.1, getv o p.1)

/-- A two-int-field instance used by the override theorems. -/
def sampleObj : BaseParamsObj :=
  { className := "Test"
    name_to_type_node := [("a", .int), ("b", .int)]
    values := [("a", .int 1), ("b", .int 2)]
    default_values := [("a", .int 1), ("b", .int 2)]
    is_frozen := false }

/-- A one-field instance, class name `TestA`. -/
def objA : BaseParamsObj :=
  { className := "TestA"
    name_to_type_node := [("x", .int)]
    values := [("x", .int 1)]
    default_values := [("x", .int 1)]
    is_frozen := true }

/-- A one-field instance with the same fields and values as `objA` but class
name `TestB`. -/
def objB : BaseParamsObj :=
  { className := "TestB"
    name_to_type_node := [("x", .int)]
    values := [("x", .int 1)]
    default_values := [("x", .int 1)]
    is_frozen := true }

theorem setField_lookup_ne (l : List (String × PyVal)) (k n : String) (v : PyVal)
    (h : n ≠ k) : (setField l k v).lookup n = l.lookup n := by
  have hb : (n == k) = false := by simpa using h
  induction l with
  | nil =>
    unfold setField
    simp [List.lookup, hb]
  | cons p rest ih =>
    obtain ⟨k0, v0⟩ := p
    unfold setField
    by_cases hk : k0 = k
    · subst hk
      simp [List.lookup, hb]
    · simp only [if_neg hk]
      simp [List.lookup, ih]

theorem convert_and_set1_ok (o o2 : BaseParamsObj) (n : String) (v : PyVal)
    (h : convert_and_set1 o n v = .ok o2) :
    ∃ cv, o2 = { o with values := setField o.values n cv } := by
  unfold convert_and_set1 at h
  split at h
  · cases h
  · split at h
    · cases h
    · unfold setattr1 at h
      split at h
      · cases h
      · split at h
        · cases h
        · cases h
          exact ⟨_, rfl⟩

theorem overrideLoop1_preserves (us : List (String × PyVal)) :
    ∀ (o : BaseParamsObj) (n : String), n ∉ us.map Prod.fst →
    ((override_from_dict1 o us).2).values.lookup n = o.values.lookup n := by
  induction us with
  | nil => intro o n _; rfl
  | cons p rest ih =>
    obtain ⟨m, w⟩ := p
    intro o n hn
    simp only [List.map_cons, List.mem_cons] at hn
    push_neg at hn
    unfold override_from_dict1
    split
    · rfl
    · cases hc : convert_and_set1 o m w with
      | error e => rfl
      | ok o2 =>
        obtain ⟨cv, rfl⟩ := convert_and_set1_ok o o2 m w hc
        rw [ih _ n hn.2]
        exact setField_lookup_ne o.values m n cv hn.1

/-- C4 (amended): `_override_from_dict` is NOT atomic — updates are coerced
and committed one at a time in dict order.  After a first field is
successfully converted and assigned, the call continues on the UPDATED
object, and the first field's new value persists in the object the caller
holds even when a later field errors (the returned state below is the state
at raise time). -/
theorem override_commits_prefix (o o1 : BaseParamsObj) (n : String) (v : PyVal)
    (rest : List (String × PyVal))
    (h1 : (o.name_to_type_node.lookup n).isSome = true)
    (h2 : convert_and_set1 o n v = .ok o1)
    (h3 : n ∉ rest.map Prod.fst) :
    (override_from_dict1 o ((n, v) :: rest)).1 = (override_from_dict1 o1 rest).1 ∧
    ((override_from_dict1 o ((n, v) :: rest)).2).values.lookup n = o1.values.lookup n := by
  have hnone : (o.name_to_type_node.lookup n).isNone = false := by
    cases hx : o.name_to_type_node.lookup n
    · rw [hx] at h1; cases h1
    · rfl
  have hstep : override_from_dict1 o ((n, v) :: rest) = override_from_dict1 o1 rest := by
    unfold override_from_dict1
    rw [if_neg (by simp [hnone])]
    rw [h2]
    cases rest <;> rfl
  rw [hstep]
  exact ⟨rfl, overrideLoop1_preserves rest o1 n h3⟩

/-- Counterexample to C4 as stated: overriding `{a: 10, b: "x"}` on a
two-int-field object raises on `b` (coercion failure) but leaves `a`
changed to `10` — not the prior canonical value `1`. -/
theorem override_not_atomic_counterexample :
    (override_from_dict1 sampleObj [("a", .int 10), ("b", .str "x")]).1 = .error .conversion ∧
    ((override_from_dict1 sampleObj [("a", .int 10), ("b", .str "x")]).2).values.lookup "a" =
      some (.int 10) ∧
    sampleObj.values.lookup "a" = some (.int 1) := ⟨rfl, rfl, rfl⟩

/-- Witness for C4 at a concrete object and update map. -/
theorem override_commits_prefix_witness :
    (override_from_dict1 sampleObj [("a", .int 10), ("b", .str "x")]).1 =
      (override_from_dict1
        { sampleObj with values := [("a", PyVal.int 10), ("b", PyVal.int 2)] }
        [("b", .str "x")]).1 ∧
    ((override_from_dict1 sampleObj [("a", .int 10), ("b", .str "x")]).2).values.lookup "a" =
      ({ sampleObj with values := [("a", PyVal.int 10), ("b", PyVal.int 2)] } :
        BaseParamsObj).values.lookup "a" :=
  override_commits_prefix sampleObj
    { sampleObj with values := [("a", PyVal.int 10), ("b", PyVal.int 2)] }
    "a" (.int 10) [("b", .str "x")] rfl rfl (by decide)

/-- C5 (amended): direct attribute assignment to a declared field of a frozen
object raises the frozen-mutation `AttributeError` in both variants, and the
v1 `override` raises it on the first field it tries to assign; but the v2
`override` is the sanctioned mutation path for frozen objects — its
`Override` context unfreezes, applies, and refreezes (the flag is restored
even on error), so it does NOT raise for being frozen.  Equality and
default-diff queries never consult the flag. -/
theorem frozen_behavior :
    (∀ (o : BaseParamsObj) (key : String) (v : PyVal),
      o.is_frozen = true → (o.name_to_type_node.lookup key).isSome = true →
      setattr1 o key v = .error .frozenMutation) ∧
    (∀ (o : BaseParamsObj) (key : String) (v : PyVal),
      o.is_frozen = true → (o.name_to_type_node.lookup key).isSome = true →
      setattr2 o key v = .error .frozenMutation) ∧
    (∀ (o : BaseParamsObj) (n : String) (node : TNode) (v cv : PyVal)
      (rest : List (String × PyVal)),
      o.is_frozen = true →
      o.name_to_type_node.lookup n = some node →
      from_python_object node v = .ok cv →
      override_from_dict1 o ((n, v) :: rest) = (.error .frozenMutation, o)) ∧
    (∀ (o : BaseParamsObj) (us : List (String × PyVal)),
      ((override_from_dict2 o us).2).is_frozen = true) ∧
    (∀ (o other : BaseParamsObj) (b1 b2 : Bool),
      eq1 { o with is_frozen := b1 } { other with is_frozen := b2 } = eq1 o other ∧
      eq2 { o with is_frozen := b1 } { other with is_frozen := b2 } = eq2 o other ∧
      get_non_defaults { o with is_frozen := b1 } = get_non_defaults o) := by
  refine ⟨?_, ?_, ?_, ?_, ?_⟩
  · intro o key v hf hk
    have hnone : (o.name_to_type_node.lookup key).isNone = false := by
      cases hx : o.name_to_type_node.lookup key
      · rw [hx] at hk; cases hk
      · rfl
    simp [setattr1, hnone, hf]
  · intro o key v hf hk
    have hnone : (o.name_to_type_node.lookup key).isNone = false := by
      cases hx : o.name_to_type_node.lookup key
      · rw [hx] at hk; cases hk
      · rfl
    simp [setattr2, hnone, hf]
  · intro o n node v cv rest hf hn hc
    have hnone : (o.name_to_type_node.lookup n).isNone = false := by rw [hn]; rfl
    have hcs : convert_and_set1 o n v = .error .frozenMutation := by
      simp only [convert_and_set1, hn, hc]
      simp [setattr1, hnone, hf]
    unfold override_from_dict1
    rw [if_neg (by simp [hnone]), hcs]
  · intro o us
    unfold override_from_dict2
    rfl
  · intro o other b1 b2
    exact ⟨rfl, rfl, rfl⟩

/-- Counterexample to C5 as stated: a frozen v2 object accepts
`override_from_dict` — the call succeeds, the field changes, and the object
is frozen again afterwards; no frozen-mutation error is raised. -/
theorem frozen_override2_succeeds_counterexample :
    objA.is_frozen = true ∧
    (override_from_dict2 objA [("x", .int 10)]).1 = .ok () ∧
    ((override_from_dict2 objA [("x", .int 10)]).2).values.lookup "x" = some (.int 10) ∧
    ((override_from_dict2 objA [("x", .int 10)]).2).is_frozen = true := ⟨rfl, rfl, rfl, rfl⟩

/-- Witness for C5 at a concrete frozen object. -/
theorem frozen_behavior_witness :
    setattr1 objA "x" (.int 5) = .error .frozenMutation ∧
    setattr2 objA "x" (.int 5) = .error .frozenMutation ∧
    override_from_dict1 objA [("x", .int 5)] = (.error .frozenMutation, objA) :=
  ⟨frozen_behavior.1 objA "x" (.int 5) rfl rfl,
   frozen_behavior.2.1 objA "x" (.int 5) rfl rfl,
   frozen_behavior.2.2.1 objA "x" TNode.int (.int 5) (.int 5) [] rfl rfl rfl⟩

/-- C9 (amended): equality never inspects the declared class — any
`BaseParams` instance passes the `isinstance` gate, and only self's field
names/values are compared (v2 additionally requires the other object to
declare them).  Two objects of DIFFERENT declared types with identical field
sets and values therefore compare equal. -/
theorem eq_ignores_class :
    (∀ o other : BaseParamsObj,
      (∀ p ∈ o.name_to_type_node, pyEqB (getv o p.1) (getv other p.1) = true) →
      eq1 o other = true) ∧
    (∀ o other : BaseParamsObj,
      (∀ p ∈ o.name_to_type_node,
        (other.name_to_type_node.lookup p.1).isSome = true ∧
        pyEqB (getv o p.1) (getv other p.1) = true) →
      eq2 o other = true) := by
  constructor
  · intro o other h
    unfold eq1
    rw [List.all_eq_true]
    intro p hp
    exact h p hp
  · intro o other h
    unfold eq2
    rw [List.all_eq_true]
    intro p hp
    rw [Bool.and_eq_true]
    exact ⟨(h p hp).1, (h p hp).2⟩

/-- Counterexample to C9 as stated: `objA` and `objB` have different declared
class names but identical field sets and values, and both `__eq__` variants
return `True`. -/
theorem eq_different_class_counterexample :
    objA.className ≠ objB.className ∧ eq1 objA objB = true ∧ eq2 objA objB = true :=
  ⟨by decide, rfl, rfl⟩

/-- Witness for C9: the general theorem applied at the two concrete
different-class objects. -/
theorem eq_ignores_class_witness :
    eq1 objA objB = true ∧ eq2 objA objB = true :=
  ⟨eq_ignores_class.1 objA objB (by decide), eq_ignores_class.2 objA objB (by decide)⟩
